import Mathlib

/-!
Shallow embedding of `src/webassets/merge.py` (the content-merge and
filter-application engine of the webassets asset-build pipeline), together
with proofs about the hunk model, the merge function, the filter-chain
composition helpers and the cache-aware filter-application engine
(`FilterTool`).

Modelling conventions:
* Python text (`str`) and byte (`bytes`) values are both carried as Lean
  `String`s, tagged by the `Content` inductive; a `bytes` payload is carried
  as its decoded text (decoding is assumed to succeed), which keeps the
  str-vs-bytes distinction the source code branches on.
* Python `None` appearing where content is expected is the `PyObj.pynone`
  constructor.
* Exceptions are `Except PyError`.
* I/O collaborators (local filesystem, HTTP transport, the url cache and the
  filter cache store) are explicit parameters; observable interactions with
  the cache store and with filter methods are recorded in effect traces.
-/

namespace Webassets

/-- Python content value: either a text string or a bytes value. A bytes
value is carried as its decoded text, keeping the two kinds distinct the way
`isinstance(h, bytes)` checks in the source do. -/
inductive Content where
  | str (s : String)
  | bytes (s : String)
deriving DecidableEq, Repr

/-- A Python value in a position where the source may hold either real
content or `None` (e.g. `UrlHunk._data` after a 304 with an empty cache). -/
inductive PyObj where
  | content (c : Content)
  | pynone
deriving DecidableEq, Repr

/-- `isinstance(h, bytes)`. -/
def Content.isBytes : Content → Bool
  | .bytes _ => true
  | .str _ => false

/-- The character payload of the content (for bytes, its decoded text). -/
def Content.text : Content → String
  | .str s => s
  | .bytes s => s

/-- Rebuild content of the same stream kind: in `FilterTool.apply` the output
stream allocated for each filter is a `StringIO`/`BytesIO` matching the kind
of the current data stream. -/
def Content.withText : Content → String → Content
  | .str _, s => .str s
  | .bytes _, s => .bytes s

/-- Python keyword-argument dictionaries, as finite maps from names. -/
abbrev Kwargs : Type := String → Option String

/-- The empty dict `{}`. -/
def Kwargs.empty : Kwargs := fun _ => none

/-- `d = base.copy(); d.update(upd)`: entries of `upd` win. -/
def Kwargs.update (base upd : Kwargs) : Kwargs := fun k =>
  match upd k with
  | some v => some v
  | none => base k

/-- A stream-transform filter method (`input`/`output`): it reads the whole
current data stream and the text it writes into the fresh output stream is
the returned string. -/
abbrev TransformFn : Type := Content → Kwargs → String

/-- A producer filter method (`open`/`concat`): it receives positional
arguments and writes text into a fresh `StringIO`. -/
abbrev ProducerFn : Type := List String → Kwargs → String

/-- Modelled from the spec: the `Filter` base class (webassets/filter) is not
under src/. Per the spec a filter is a named object exposing zero or more of
the four capability methods, an optional `max_debug_level`, and "an equality
relation used to deduplicate filters"; `fid` realises that equality identity.
Capability methods are optional fields, mirroring the source's
`getattr(f, type, None)` presence checks. -/
structure Filter where
  name : String
  fid : Nat
  inputMethod : Option TransformFn := none
  outputMethod : Option TransformFn := none
  openMethod : Option ProducerFn := none
  concatMethod : Option ProducerFn := none
  max_debug_level : Option String := none

/-- Filter `__eq__`, by the equality identity. -/
def Filter.pyEq (f g : Filter) : Bool := decide (f.fid = g.fid)

/-- The two valid stream-transform kinds (`FilterTool.VALID_TRANSFORMS`). -/
inductive TransformType where
  | input
  | output
deriving DecidableEq, Repr

/-- The Python string value naming the transform. -/
def TransformType.pyStr : TransformType → String
  | .input => "input"
  | .output => "output"

/-- The two valid producer kinds (`FilterTool.VALID_FUNCS`). -/
inductive FuncType where
  | openFn
  | concat
deriving DecidableEq, Repr

/-- The Python string value naming the producer method. -/
def FuncType.pyStr : FuncType → String
  | .openFn => "open"
  | .concat => "concat"

/-- `getattr(f, type, None)` for a transform kind. -/
def Filter.transformMethod (f : Filter) : TransformType → Option TransformFn
  | .input => f.inputMethod
  | .output => f.outputMethod

/-- `getattr(f, type, None)` for a producer kind. -/
def Filter.funcMethod (f : Filter) : FuncType → Option ProducerFn
  | .openFn => f.openMethod
  | .concat => f.concatMethod

/-- Python exceptions raised by the modelled code. -/
inductive PyError where
  | ioError
  | httpError (code : Nat)
  | attributeError (attr : String)
  | typeError (msg : String)
  | noFilters
  | moreThanOneFilter (message : String) (filters : List Filter)

/-- Reduction of do-notation bind on a successful `Except PyError` value. -/
@[simp] lemma exceptBindOk {α β : Type} (a : α) (f : α → Except PyError β) :
    (Except.ok a >>= f) = f a := rfl

/-- Reduction of do-notation bind on a raised `Except PyError` value. -/
@[simp] lemma exceptBindError {α β : Type} (e : PyError)
    (f : α → Except PyError β) :
    ((Except.error e : Except PyError α) >>= f) = Except.error e := rfl

/-- Reduction of map on a successful `Except PyError` value. -/
@[simp] lemma exceptMapOk {α β : Type} (f : α → β) (a : α) :
    (f <$> (Except.ok a : Except PyError α)) = Except.ok (f a) := rfl

/-- Reduction of map on a raised `Except PyError` value. -/
@[simp] lemma exceptMapError {α β : Type} (f : α → β) (e : PyError) :
    (f <$> (Except.error e : Except PyError α)) = Except.error e := rfl

/-- Pure for `Except PyError` is `ok`. -/
@[simp] lemma exceptPure {α : Type} (a : α) :
    (pure a : Except PyError α) = Except.ok a := rfl

/-- Reduction of `Except.map` on a successful value. -/
@[simp] lemma exceptMapFnOk {α β : Type} (f : α → β) (a : α) :
    Except.map f (Except.ok a : Except PyError α) = Except.ok (f a) := rfl

/-- Reduction of `Except.map` on a raised value. -/
@[simp] lemma exceptMapFnError {α β : Type} (f : α → β) (e : PyError) :
    Except.map f (Except.error e : Except PyError α) = Except.error e := rfl

/-- The environment handed to a `UrlHunk`; `cache` is the truthiness of
`env.cache` (whether a cache collaborator is configured). -/
structure Env where
  cache : Bool
deriving DecidableEq, Repr

/-- The headers object of a successful HTTP response
(`http.client.HTTPMessage`), carrying the validator headers the server
sent. -/
structure HTTPMessage where
  etagHeader : Option String := none
  lastModifiedHeader : Option String := none
deriving DecidableEq, Repr

/-- Python 3's `http.client.HTTPMessage` (an `email.message.Message`) defines
no `getheader` method, so the Python 2 idiom `response.headers.getheader(..)`
at merge.py lines 122-123 raises `AttributeError` regardless of the header
asked for. -/
def HTTPMessage.getheader (_ : HTTPMessage) (_ : String) :
    Except PyError (Option String) :=
  .error (.attributeError "getheader")

/-- Outcome of `urllib.request.urlopen`: a successful response with a body
(`response.read()`, bytes) and headers, or an `HTTPError` with a status
code. -/
inductive HttpResponse where
  | success (body : String) (headers : HTTPMessage)
  | httpError (code : Nat)

/-- The network collaborator: given the url, the `If-None-Match` header and
the `If-Modified-Since` header of the request, produce the response. -/
structure Transport where
  fetch : String → Option String → Option String → HttpResponse

/-- The environment cache used by `UrlHunk`, holding the
`('url', 'headers', url)` and `('url', 'contents', url)` entries. -/
structure UrlCache where
  headers : String → Option (Option String × Option String)
  contents : String → Option Content

/-- External world: the local filesystem (`FileHunk.data` reads and decodes a
file, `none` meaning the read raises an I/O error), the HTTP transport and
the url cache state. -/
structure World where
  fs : String → Option String
  transport : Transport
  urlCache : UrlCache

/-- The hunk variants: `FileHunk filename`, `UrlHunk url env` (whose `memo`
is the memoized `_data` attribute once set), and `MemoryHunk(data, files)`. -/
inductive Hunk where
  | file (filename : String)
  | url (url : String) (env : Option Env) (memo : Option PyObj)
  | memory (data : Content) (files : List String)

/-- Observable interactions of `UrlHunk.data` with its collaborators. -/
inductive UrlEffect where
  | cacheGetHeaders (url : String)
  | request (url : String) (ifNoneMatch ifModifiedSince : Option String)
  | readBody (url : String)
  | cacheGetContents (url : String)
  | cacheSetHeaders (url : String) (etag lmod : Option String)
  | cacheSetContents (url : String) (body : Content)
deriving DecidableEq, Repr

/-- Python truthiness of an optional header value: `if etag:` skips both
`None` and the empty string. -/
def truthyHeader : Option String → Option String
  | some s => if s = "" then none else some s
  | none => none

/-- Result of one `UrlHunk.data` fetch: the returned value or raised error,
the value the `_data` attribute was set to (if any), the url cache after the
call, and the interaction trace. -/
structure UrlFetchResult where
  result : Except PyError PyObj
  memo : Option PyObj
  cache : UrlCache
  effects : List UrlEffect

/-- `UrlHunk.data`, lines 92-125 of merge.py, for the case where `_data` is
not yet set. Conditional headers are looked up in the cache when an
environment with a cache is present; a non-304 `HTTPError` propagates; a 304
answers from the `('url', 'contents', url)` cache entry; a successful
response memoizes the body and then attempts to store the validators — which
in Python 3 raises `AttributeError` inside `HTTPMessage.getheader` before
any `cache.set` runs (the branch past `getheader` is kept as written in the
source, though it is unreachable). -/
def urlFetch (w : World) (url : String) (env : Option Env) : UrlFetchResult :=
  let headersLookup : Option (Option String × Option String) × List UrlEffect :=
    match env with
    | some e =>
        if e.cache then (w.urlCache.headers url, [.cacheGetHeaders url])
        else (none, [])
    | none => (none, [])
  let validators : Option String × Option String :=
    match headersLookup.1 with
    | some (etag, lmod) => (truthyHeader etag, truthyHeader lmod)
    | none => (none, none)
  let inm := validators.1
  let ims := validators.2
  let effs := headersLookup.2 ++ [.request url inm ims]
  match w.transport.fetch url inm ims with
  | .httpError code =>
      if code ≠ 304 then
        { result := .error (.httpError code), memo := none,
          cache := w.urlCache, effects := effs }
      else
        match env with
        | none =>
            { result := .error (.attributeError "cache"), memo := none,
              cache := w.urlCache, effects := effs }
        | some e =>
            if e.cache then
              let v : PyObj :=
                match w.urlCache.contents url with
                | some c => .content c
                | none => .pynone
              { result := .ok v, memo := some v, cache := w.urlCache,
                effects := effs ++ [.cacheGetContents url] }
            else
              { result := .error (.attributeError "get"), memo := none,
                cache := w.urlCache, effects := effs }
  | .success body hm =>
      let data : PyObj := .content (.bytes body)
      let effs := effs ++ [.readBody url]
      match env with
      | none =>
          { result := .ok data, memo := some data, cache := w.urlCache,
            effects := effs }
      | some e =>
          if e.cache then
            match hm.getheader "ETag" with
            | .error err =>
                { result := .error err, memo := some data,
                  cache := w.urlCache, effects := effs }
            | .ok etag =>
                match hm.getheader "Last-Modified" with
                | .error err =>
                    { result := .error err, memo := some data,
                      cache := w.urlCache, effects := effs }
                | .ok lmod =>
                    let c1 : UrlCache :=
                      { headers := fun u =>
                          if u = url then some (etag, lmod)
                          else w.urlCache.headers u,
                        contents := w.urlCache.contents }
                    let c2 : UrlCache :=
                      { headers := c1.headers,
                        contents := fun u =>
                          if u = url then some (.bytes body)
                          else w.urlCache.contents u }
                    { result := .ok data, memo := some data, cache := c2,
                      effects := effs ++
                        [.cacheSetHeaders url etag lmod,
                         .cacheSetContents url (.bytes body)] }
          else
            { result := .ok data, memo := some data, cache := w.urlCache,
              effects := effs }

/-- The value `hunk.data()` evaluates to: a file hunk reads and decodes its
file (raising on failure), a memory hunk returns its stored content, and a
url hunk returns its memoized `_data` or performs the fetch. -/
def Hunk.dataVal (w : World) : Hunk → Except PyError PyObj
  | .file fn =>
      match w.fs fn with
      | some s => .ok (.content (.str s))
      | none => .error .ioError
  | .memory d _ => .ok (.content d)
  | .url u env memo =>
      match memo with
      | some v => .ok v
      | none => (urlFetch w u env).result

/-- `BaseHunk.__hash__`: `hash(self.data())`. `H` stands for Python's builtin
`hash` on the data value; any function models it, since all the source
relies on is that it is a function of the value. -/
def Hunk.pyHash (H : PyObj → Int) (w : World) (h : Hunk) : Except PyError Int :=
  (h.dataVal w).map H

/-- `BaseHunk.__eq__`: both operands are hunks here, so it is
`hash(self) == hash(other)`. -/
def Hunk.pyEq (H : PyObj → Int) (w : World) (h1 h2 : Hunk) :
    Except PyError Bool := do
  let a ← h1.pyHash H w
  let b ← h2.pyHash H w
  pure (decide (a = b))

/-- `if not separator: separator = '\n'` — Python falsiness makes both `None`
and the empty string fall back to the newline separator. -/
def effectiveSeparator : Option String → String
  | none => "\n"
  | some s => if s = "" then "\n" else s

/-- The loop body of `merge`: each hunk's `data()`, with bytes decoded; a
`None` data value is appended as-is (it makes the later `join` raise). -/
def mergeItems (w : World) : List Hunk → Except PyError (List (Option String))
  | [] => .ok []
  | h :: rest => do
      let v ← h.dataVal w
      let item : Option String :=
        match v with
        | .content c => some c.text
        | .pynone => none
      let tl ← mergeItems w rest
      pure (item :: tl)

/-- `separator.join(tmp)`: raises `TypeError` when an item is not a string. -/
def joinItems (sep : String) (items : List (Option String)) :
    Except PyError String :=
  if items.all Option.isSome then
    .ok (String.intercalate sep (items.filterMap id))
  else
    .error (.typeError "sequence item: expected str instance")

/-- `merge(hunks, separator=None)`: returns a new `MemoryHunk` holding the
hunks' data joined by the separator. -/
def merge (w : World) (hunks : List Hunk) (separator : Option String) :
    Except PyError Hunk := do
  let sep := effectiveSeparator separator
  let tmp ← mergeItems w hunks
  let joined ← joinItems sep tmp
  pure (.memory (.str joined) [])

/-- Cache keys built by the engine: `("hunk", hunk, tuple(filters), type)`
for `apply` and `("hunk", args, tuple(filters), type, cache_key or [])` for
`apply_func`. Tuples of different shapes are never equal, so the two forms
are separate constructors. -/
inductive CacheKey where
  | transformKey (hunk : Hunk) (filters : List Filter) (ty : TransformType)
  | funcKey (args : List String) (filters : List Filter) (ty : FuncType)
      (extra : List String)

/-- Observable interactions of `FilterTool` with the cache store and with
filter methods. -/
inductive Effect where
  | cacheGet (key : CacheKey)
  | cacheSet (key : CacheKey) (content : Content)
  | runMethod (filterName : String) (methodName : String)

/-- Whether an effect touches the cache store. -/
def Effect.isCacheOp : Effect → Bool
  | .cacheGet _ => true
  | .cacheSet _ _ => true
  | .runMethod _ _ => false

/-- `FilterTool(cache=None, no_cache_read=False, kwargs=None)`. The cache
store collaborator is modelled by its `get` behaviour; `set` calls are
recorded in the effect trace. -/
structure FilterTool where
  cache : Option (CacheKey → Option Content) := none
  no_cache_read : Bool := false
  kwargs : Kwargs := Kwargs.empty

/-- `FilterTool._wrap_cache(key, func)`, with `func` returning the content of
the produced stream (`func().getvalue()`) plus the trace of filter methods it
ran. A stored value is a hit when it is neither `False` nor `None`, which the
`Option` result of `get` models. -/
def FilterTool.wrap_cache (t : FilterTool) (key : CacheKey)
    (func : Unit → Except PyError Content × List Effect) :
    Except PyError Hunk × List Effect :=
  match t.cache with
  | none =>
      match func () with
      | (.ok c, eff) => (.ok (.memory c []), eff)
      | (.error e, eff) => (.error e, eff)
  | some get =>
      if t.no_cache_read then
        match func () with
        | (.ok c, eff) => (.ok (.memory c []), eff ++ [.cacheSet key c])
        | (.error e, eff) => (.error e, eff)
      else
        match get key with
        | some c => (.ok (.memory c []), [.cacheGet key])
        | none =>
            match func () with
            | (.ok c, eff) =>
                (.ok (.memory c []), .cacheGet key :: (eff ++ [.cacheSet key c]))
            | (.error e, eff) => (.error e, .cacheGet key :: eff)

/-- `kwargs_final = self.kwargs.copy(); kwargs_final.update(kwargs or {})`. -/
def FilterTool.kwargsFinal (t : FilterTool) (kwargs : Option Kwargs) : Kwargs :=
  Kwargs.update t.kwargs (kwargs.getD Kwargs.empty)

/-- `io.BytesIO(h)` / `io.StringIO(h)` on the hunk's data: the stream kind is
set by the content kind; `io.StringIO(None)` yields an empty text buffer. -/
def streamInit : PyObj → Content
  | .content c => c
  | .pynone => .str ""

/-- The filter loop inside `FilterTool.apply.func`: each filter's method
transforms the current stream into a fresh output stream of the same kind.
(The `none` branch is unreachable on the filtered list `apply` passes.) -/
def chainRun (ty : TransformType) (kw : Kwargs) :
    List Filter → Content → Content × List Effect
  | [], c => (c, [])
  | f :: rest, c =>
      match f.transformMethod ty with
      | some m =>
          let r := chainRun ty kw rest (c.withText (m c kw))
          (r.1, .runMethod f.name ty.pyStr :: r.2)
      | none => chainRun ty kw rest c

/-- The filtered list `[f for f in filters if getattr(f, type, None)]` of
`FilterTool.apply`. -/
def selTransform (filters : List Filter) (ty : TransformType) : List Filter :=
  filters.filter fun f => (f.transformMethod ty).isSome

/-- The filtered list `[f for f in filters if getattr(f, type, None)]` of
`FilterTool.apply_func`. -/
def selFunc (filters : List Filter) (ty : FuncType) : List Filter :=
  filters.filter fun f => (f.funcMethod ty).isSome

/-- The `func` closure of `FilterTool.apply`: take the hunk's data (errors
propagate), set up the stream, run the chain. -/
def FilterTool.applyChainFunc (t : FilterTool) (w : World) (hunk : Hunk)
    (sel : List Filter) (ty : TransformType) (kwargs : Option Kwargs) :
    Except PyError Content × List Effect :=
  match hunk.dataVal w with
  | .error e => (.error e, [])
  | .ok v =>
      let r := chainRun ty (t.kwargsFinal kwargs) sel (streamInit v)
      (.ok r.1, r.2)

/-- `FilterTool.apply(hunk, filters, type, kwargs)`. -/
def FilterTool.apply (t : FilterTool) (w : World) (hunk : Hunk)
    (filters : List Filter) (ty : TransformType) (kwargs : Option Kwargs) :
    Except PyError Hunk × List Effect :=
  let sel := selTransform filters ty
  if sel.isEmpty then
    (.ok hunk, [])
  else
    t.wrap_cache (.transformKey hunk sel ty)
      (fun _ => t.applyChainFunc w hunk sel ty kwargs)

/-- The `func` closure of `FilterTool.apply_func`: run the single filter's
producer method into a fresh `StringIO`. (The fallback branches are
unreachable on the list `apply_func` passes.) -/
def FilterTool.applyFuncProducer (t : FilterTool) (sel : List Filter)
    (ty : FuncType) (args : List String) (kwargs : Option Kwargs) :
    Except PyError Content × List Effect :=
  match sel with
  | f :: _ =>
      match f.funcMethod ty with
      | some m =>
          (.ok (.str (m args (t.kwargsFinal kwargs))), [.runMethod f.name ty.pyStr])
      | none => (.ok (.str ""), [])
  | [] => (.error .noFilters, [])

/-- `FilterTool.apply_func(filters, type, args, kwargs, cache_key)`. -/
def FilterTool.apply_func (t : FilterTool) (filters : List Filter)
    (ty : FuncType) (args : List String) (kwargs : Option Kwargs)
    (cache_key : Option (List String)) : Except PyError Hunk × List Effect :=
  let sel := selFunc filters ty
  if sel.isEmpty then
    (.error .noFilters, [])
  else if sel.length > 1 then
    (.error (.moreThanOneFilter
      ("These filters cannot be combined: " ++
        String.intercalate ", " (sel.map Filter.name)) sel), [])
  else
    t.wrap_cache (.funcKey args sel ty (cache_key.getD []))
      (fun _ => t.applyFuncProducer sel ty args kwargs)

/-- Python `f in result`, via `Filter.__eq__`. -/
def pyFilterMem (f : Filter) (l : List Filter) : Bool := l.any fun g => f.pyEq g

/-- `merge_filters(filters1, filters2)`: start from a copy of `filters1`,
append each filter of `filters2` not already present. (A `None` second list
behaves like the empty list, which the `if filters2:` guard also makes
behave as a no-op.) -/
def merge_filters (filters1 filters2 : List Filter) : List Filter :=
  filters2.foldl
    (fun result f => if pyFilterMem f result then result else result ++ [f])
    filters1

/-- `select_filters(filters, level)`. `cmp` is `cmp_debug_levels`, modelled
from the spec as an externally supplied level-ordering comparator
(webassets/utils.py is not under src/); levels are opaque tokens. -/
def select_filters (cmp : String → String → Int) (filters : List Filter)
    (level : String) : List Filter :=
  filters.filter fun f =>
    match f.max_debug_level with
    | none => true
    | some m => decide (cmp level m ≤ 0)

/-- Elementwise Python `==` on the filter tuples inside cache keys. -/
def filterListPyEq : List Filter → List Filter → Bool
  | [], [] => true
  | f :: fs, g :: gs => f.pyEq g && filterListPyEq fs gs
  | _, _ => false

/-- Python `==` on cache keys (tuple equality, with the hunk component
compared by `BaseHunk.__eq__`, which may raise while hashing data). -/
def CacheKey.pyEq (H : PyObj → Int) (w : World) :
    CacheKey → CacheKey → Except PyError Bool
  | .transformKey h1 fs1 t1, .transformKey h2 fs2 t2 => do
      let hb ← Hunk.pyEq H w h1 h2
      pure (hb && filterListPyEq fs1 fs2 && decide (t1 = t2))
  | .funcKey a1 fs1 t1 e1, .funcKey a2 fs2 t2 e2 =>
      .ok (decide (a1 = a2) && filterListPyEq fs1 fs2 && decide (t1 = t2) &&
        decide (e1 = e2))
  | _, _ => .ok false

/-- Python `hash` on cache keys: a tuple's hash is a function (`TH`) of its
components' hashes; the hunk component contributes `hash(hunk)`, strings
hash by `SH` and filters by `FH`. All three are arbitrary functions, since
that is all tuple hashing relies on. -/
def CacheKey.pyHash (H : PyObj → Int) (TH : List Int → Int)
    (SH : String → Int) (FH : Filter → Int) (w : World) :
    CacheKey → Except PyError Int
  | .transformKey h fs t =>
      (Hunk.pyHash H w h).map fun hh =>
        TH [SH "hunk", hh, TH (fs.map FH), SH t.pyStr]
  | .funcKey args fs t extra =>
      .ok (TH [SH "hunk", TH (args.map SH), TH (fs.map FH), SH t.pyStr,
        TH (extra.map SH)])

/-! Concrete fixtures used by witnesses. -/

/-- A world with an empty filesystem, a transport that always answers 404
and an empty url cache. -/
def w0 : World :=
  { fs := fun _ => none,
    transport := { fetch := fun _ _ _ => .httpError 404 },
    urlCache := { headers := fun _ => none, contents := fun _ => none } }

/-- A filter with no capability methods. -/
def filterA : Filter := { name := "A", fid := 0 }

/-- A filter implementing the `output` transform. -/
def filterB : Filter :=
  { name := "B", fid := 1, outputMethod := some fun c _ => c.text ++ "!" }

/-- A filter implementing the `open` producer. -/
def filterC : Filter :=
  { name := "C", fid := 2,
    openMethod := some fun args _ => String.intercalate "|" args }

/-- A second filter implementing the `open` producer. -/
def filterD : Filter :=
  { name := "D", fid := 3, openMethod := some fun _ _ => "D" }

/-- C3: `apply` with no filter of the requested transform kind returns the
original hunk unchanged, with no cache access and no filter method run. -/
theorem c3_apply_short_circuit (t : FilterTool) (w : World) (hunk : Hunk)
    (filters : List Filter) (ty : TransformType) (kwargs : Option Kwargs)
    (h : selTransform filters ty = []) :
    t.apply w hunk filters ty kwargs = (.ok hunk, []) := by
  simp [FilterTool.apply, h]

/-- Witness for C3 at a concrete input: one `open`-only filter, transform
kind `output`. -/
theorem c3_witness :
    FilterTool.apply { } w0 (Hunk.memory (Content.str "x") []) [filterC]
        TransformType.output none =
      (.ok (Hunk.memory (Content.str "x") []), []) :=
  c3_apply_short_circuit { } w0 (Hunk.memory (Content.str "x") []) [filterC]
    TransformType.output none rfl

/-- C4: `apply_func` raises `NoFilters` when no filter implements the
producer kind and `MoreThanOneFilterError` (carrying the conflicting
filters) when more than one does; in both cases no filter method runs and
the cache is untouched. -/
theorem c4_apply_func_errors (t : FilterTool) (filters : List Filter)
    (ty : FuncType) (args : List String) (kwargs : Option Kwargs)
    (cache_key : Option (List String)) :
    (selFunc filters ty = [] →
      t.apply_func filters ty args kwargs cache_key = (.error .noFilters, [])) ∧
    ((selFunc filters ty).length > 1 →
      t.apply_func filters ty args kwargs cache_key =
        (.error (.moreThanOneFilter
          ("These filters cannot be combined: " ++
            String.intercalate ", " ((selFunc filters ty).map Filter.name))
          (selFunc filters ty)), [])) := by
  constructor
  · intro h
    simp [FilterTool.apply_func, h]
  · intro h
    have hne : (selFunc filters ty).isEmpty = false := by
      cases hsel : selFunc filters ty with
      | nil => rw [hsel] at h; simp at h
      | cons a l => simp
    simp [FilterTool.apply_func, hne, h]

/-- Witness for C4 at concrete inputs: zero and two `open` filters. -/
theorem c4_witness :
    FilterTool.apply_func { } [filterA] FuncType.openFn [] none none =
      (.error .noFilters, []) ∧
    FilterTool.apply_func { } [filterC, filterD] FuncType.openFn [] none none =
      (.error (.moreThanOneFilter
        ("These filters cannot be combined: " ++
          String.intercalate ", "
            ((selFunc [filterC, filterD] FuncType.openFn).map Filter.name))
        (selFunc [filterC, filterD] FuncType.openFn)), []) :=
  ⟨(c4_apply_func_errors { } [filterA] FuncType.openFn [] none none).1 rfl,
   (c4_apply_func_errors { } [filterC, filterD] FuncType.openFn [] none none).2
     (by decide)⟩

/-- Reference recursion following the spec's words: from the second list
keep, in order, exactly those filters not equal to any filter already
present in the accumulated result. -/
def specKeptFilters (acc : List Filter) : List Filter → List Filter
  | [] => []
  | f :: rest =>
      if pyFilterMem f acc then specKeptFilters acc rest
      else f :: specKeptFilters (acc ++ [f]) rest

lemma merge_filters_cons (acc : List Filter) (f : Filter)
    (rest : List Filter) :
    merge_filters acc (f :: rest) =
      merge_filters (if pyFilterMem f acc then acc else acc ++ [f]) rest := rfl

lemma merge_filters_eq_specKept (acc fs : List Filter) :
    merge_filters acc fs = acc ++ specKeptFilters acc fs := by
  induction fs generalizing acc with
  | nil => simp [merge_filters, specKeptFilters]
  | cons f rest ih =>
      rw [merge_filters_cons]
      by_cases hm : pyFilterMem f acc
      · rw [if_pos hm, ih]
        simp only [specKeptFilters, if_pos hm]
      · rw [if_neg hm, ih]
        simp only [specKeptFilters, if_neg hm, List.append_assoc,
          List.singleton_append]

/-- C6: `merge_filters` returns the first list unchanged followed by exactly
those filters of the second list (in order) not equal to a filter already in
the accumulated result; in particular `[A, B]` with `[B, C]` gives
`[A, B, C]`. -/
theorem c6_merge_filters (filters1 filters2 : List Filter) :
    merge_filters filters1 filters2 =
      filters1 ++ specKeptFilters filters1 filters2 ∧
    merge_filters [filterA, filterB] [filterB, filterC] =
      [filterA, filterB, filterC] :=
  ⟨merge_filters_eq_specKept filters1 filters2, rfl⟩

/-- A concrete level comparator for witnesses. -/
def cmp0 : String → String → Int := fun a b =>
  if a = b then 0 else if a = "high" then 1 else -1

/-- A filter with no debug-level threshold. -/
def filterNoLevel : Filter := { name := "NL", fid := 10 }

/-- A filter with a debug-level threshold. -/
def filterLow : Filter :=
  { name := "LO", fid := 11, max_debug_level := some "merge" }

/-- C7: `select_filters` keeps, in order, exactly the filters whose
`max_debug_level` is unset or whose threshold the comparator places at or
above the level. -/
theorem c7_select_filters (cmp : String → String → Int)
    (filters : List Filter) (level : String) (f : Filter)
    (hf : f ∈ filters) :
    List.Sublist (select_filters cmp filters level) filters ∧
    (f ∈ select_filters cmp filters level ↔
      f.max_debug_level = none ∨
        ∃ m, f.max_debug_level = some m ∧ cmp level m ≤ 0) := by
  constructor
  · exact List.filter_sublist _
  · rw [select_filters, List.mem_filter]
    constructor
    · rintro ⟨-, hp⟩
      cases hm : f.max_debug_level with
      | none => exact Or.inl rfl
      | some m =>
          refine Or.inr ⟨m, rfl, ?_⟩
          rw [hm] at hp
          simpa using hp
    · intro hor
      refine ⟨hf, ?_⟩
      cases hor with
      | inl h => rw [h]
      | inr h =>
          obtain ⟨m, hm, hle⟩ := h
          rw [hm]
          simpa using hle

/-- Witness for C7 at a concrete input. -/
theorem c7_witness :
    List.Sublist (select_filters cmp0 [filterNoLevel, filterLow] "high")
      [filterNoLevel, filterLow] ∧
    (filterNoLevel ∈ select_filters cmp0 [filterNoLevel, filterLow] "high" ↔
      filterNoLevel.max_debug_level = none ∨
        ∃ m, filterNoLevel.max_debug_level = some m ∧ cmp0 "high" m ≤ 0) :=
  c7_select_filters cmp0 [filterNoLevel, filterLow] "high" filterNoLevel
    (List.mem_cons_self filterNoLevel [filterLow])

/-- The decoded text a hunk contributes to a merge: its `data()` with bytes
decoded; a `None` data value raises `TypeError` (at the `join`). -/
def hunkText (w : World) (h : Hunk) : Except PyError String := do
  match ← h.dataVal w with
  | .content c => pure c.text
  | .pynone => .error (.typeError "sequence item: expected str instance")

/-- The texts of a list of hunks, first failure propagating. -/
def hunkTexts (w : World) : List Hunk → Except PyError (List String)
  | [] => .ok []
  | h :: rest => do
      let t ← hunkText w h
      let ts ← hunkTexts w rest
      pure (t :: ts)

lemma hunkText_memory (w : World) (c : Content) (files : List String) :
    hunkText w (.memory c files) = .ok c.text := rfl

lemma mergeItems_of_hunkTexts (w : World) (hunks : List Hunk)
    (texts : List String) (h : hunkTexts w hunks = .ok texts) :
    mergeItems w hunks = .ok (texts.map some) := by
  induction hunks generalizing texts with
  | nil =>
      simp [hunkTexts] at h
      subst h
      simp [mergeItems]
  | cons hd tl ih =>
      cases dv : hd.dataVal w with
      | error e => simp [hunkTexts, hunkText, dv] at h
      | ok v =>
          cases v with
          | pynone => simp [hunkTexts, hunkText, dv] at h
          | content c =>
              cases ht : hunkTexts w tl with
              | error e => simp [hunkTexts, hunkText, dv, ht] at h
              | ok ts =>
                  simp [hunkTexts, hunkText, dv, ht] at h
                  rw [← h]
                  simp [mergeItems, dv, ih ts ht]

lemma joinItems_map_some (sep : String) (texts : List String) :
    joinItems sep (texts.map some) = .ok (String.intercalate sep texts) := by
  have hall : (texts.map some).all Option.isSome = true := by
    simp [List.all_map, Function.comp_def]
  have hfm : (texts.map some).filterMap id = texts := by
    rw [List.filterMap_map]
    simp [Function.comp_def]
  simp [joinItems, hall, hfm]

/-- Evaluation of `merge` once every hunk's text is known. -/
lemma merge_eval (w : World) (hunks : List Hunk) (separator : Option String)
    (texts : List String) (h : hunkTexts w hunks = .ok texts) :
    merge w hunks separator =
      .ok (.memory (.str
        (String.intercalate (effectiveSeparator separator) texts)) []) := by
  simp [merge, mergeItems_of_hunkTexts w hunks texts h, joinItems_map_some]

lemma intercalate_pair (s a b : String) :
    String.intercalate s [a, b] = a ++ s ++ b := rfl

lemma intercalate_triple (s a b c : String) :
    String.intercalate s [a, b, c] = a ++ s ++ b ++ s ++ c := rfl

/-- C5 counterexample: with the explicit separator `""` the source joins
with a newline (`if not separator:` treats the empty string as missing),
so the merged data is not the hunks' contents joined by the given
separator. -/
theorem c5_counterexample :
    merge w0
        [Hunk.memory (Content.str "a") [], Hunk.memory (Content.str "b") []]
        (some "") =
      .ok (Hunk.memory (Content.str "a\nb") []) ∧
    "a" ++ "" ++ "b" ≠ "a\nb" := by
  exact ⟨rfl, by decide⟩

/-- C5 (amended): merge returns a new in-memory hunk whose data is the
hunks' data (bytes decoded to text) joined by the effective separator: the
given separator when it is non-empty, and a single newline when the
separator is omitted or is the empty string (Python falsiness). -/
theorem c5_merge_concatenation (w : World) (hunks : List Hunk)
    (separator : Option String) (texts : List String)
    (h : hunkTexts w hunks = .ok texts) :
    merge w hunks separator =
      .ok (Hunk.memory (Content.str
        (String.intercalate (effectiveSeparator separator) texts)) []) ∧
    effectiveSeparator none = "\n" ∧
    effectiveSeparator (some "") = "\n" ∧
    ∀ s, s ≠ "" → effectiveSeparator (some s) = s := by
  refine ⟨merge_eval w hunks separator texts h, rfl, rfl, ?_⟩
  intro s hs
  simp [effectiveSeparator, hs]

/-- Witness for the amended C5 at a concrete input: two memory hunks joined
with ";". -/
theorem c5_witness :
    merge w0
        [Hunk.memory (Content.str "a") [], Hunk.memory (Content.str "b") []]
        (some ";") =
      .ok (Hunk.memory (Content.str
        (String.intercalate (effectiveSeparator (some ";")) ["a", "b"])) []) ∧
    effectiveSeparator none = "\n" ∧
    effectiveSeparator (some "") = "\n" ∧
    ∀ s, s ≠ "" → effectiveSeparator (some s) = s :=
  c5_merge_concatenation w0
    [Hunk.memory (Content.str "a") [], Hunk.memory (Content.str "b") []]
    (some ";") ["a", "b"] rfl

/-- C9: for a fixed separator, merging is associative under re-grouping of
the hunks: merging the first two then the third, or the last two then the
first, equals the flat three-way merge. -/
theorem c9_merge_assoc (w : World) (s : Option String) (h1 h2 h3 : Hunk)
    (t1 t2 t3 : String) (d1 : hunkText w h1 = .ok t1)
    (d2 : hunkText w h2 = .ok t2) (d3 : hunkText w h3 = .ok t3) :
    ((merge w [h1, h2] s).bind fun m12 => merge w [m12, h3] s) =
      merge w [h1, h2, h3] s ∧
    ((merge w [h2, h3] s).bind fun m23 => merge w [h1, m23] s) =
      merge w [h1, h2, h3] s := by
  have h12 : hunkTexts w [h1, h2] = .ok [t1, t2] := by
    simp [hunkTexts, d1, d2]
  have h23 : hunkTexts w [h2, h3] = .ok [t2, t3] := by
    simp [hunkTexts, d2, d3]
  have h123 : hunkTexts w [h1, h2, h3] = .ok [t1, t2, t3] := by
    simp [hunkTexts, d1, d2, d3]
  have e12 := merge_eval w [h1, h2] s [t1, t2] h12
  have e23 := merge_eval w [h2, h3] s [t2, t3] h23
  have e123 := merge_eval w [h1, h2, h3] s [t1, t2, t3] h123
  rw [intercalate_pair] at e12 e23
  rw [intercalate_triple] at e123
  constructor
  · rw [e12]
    have hx : hunkTexts w
        [Hunk.memory (Content.str (t1 ++ effectiveSeparator s ++ t2)) [], h3] =
        .ok [t1 ++ effectiveSeparator s ++ t2, t3] := by
      simp [hunkTexts, hunkText_memory, d3, Content.text]
    have ex := merge_eval w
      [Hunk.memory (Content.str (t1 ++ effectiveSeparator s ++ t2)) [], h3] s
      [t1 ++ effectiveSeparator s ++ t2, t3] hx
    rw [intercalate_pair] at ex
    simp only [Except.bind]
    rw [ex, e123]
  · rw [e23]
    have hx : hunkTexts w
        [h1, Hunk.memory (Content.str (t2 ++ effectiveSeparator s ++ t3)) []] =
        .ok [t1, t2 ++ effectiveSeparator s ++ t3] := by
      simp [hunkTexts, hunkText_memory, d1, Content.text]
    have ex := merge_eval w
      [h1, Hunk.memory (Content.str (t2 ++ effectiveSeparator s ++ t3)) []] s
      [t1, t2 ++ effectiveSeparator s ++ t3] hx
    rw [intercalate_pair] at ex
    simp only [Except.bind]
    rw [ex, e123]
    simp [String.append_assoc]

/-- Witness for C9 at a concrete input. -/
theorem c9_witness :
    ((merge w0 [Hunk.memory (Content.str "a") [], Hunk.memory (Content.str "b") []]
          (some "-")).bind
        fun m12 => merge w0 [m12, Hunk.memory (Content.str "c") []] (some "-")) =
      merge w0 [Hunk.memory (Content.str "a") [],
        Hunk.memory (Content.str "b") [], Hunk.memory (Content.str "c") []]
        (some "-") ∧
    ((merge w0 [Hunk.memory (Content.str "b") [], Hunk.memory (Content.str "c") []]
          (some "-")).bind
        fun m23 => merge w0 [Hunk.memory (Content.str "a") [], m23] (some "-")) =
      merge w0 [Hunk.memory (Content.str "a") [],
        Hunk.memory (Content.str "b") [], Hunk.memory (Content.str "c") []]
        (some "-") :=
  c9_merge_assoc w0 (some "-") (Hunk.memory (Content.str "a") [])
    (Hunk.memory (Content.str "b") []) (Hunk.memory (Content.str "c") [])
    "a" "b" "c" rfl rfl rfl

lemma Filter.pyEq_refl (f : Filter) : f.pyEq f = true := by
  simp [Filter.pyEq]

lemma filterListPyEq_refl (fs : List Filter) : filterListPyEq fs fs = true := by
  induction fs with
  | nil => rfl
  | cons f rest ih => simp [filterListPyEq, Filter.pyEq_refl, ih]

/-- C1: two hunks (of any variant) whose data values are equal are
`==`-equal with equal hashes; `apply` builds cache keys for them that are
equal under Python tuple equality and have equal tuple hashes, so any cache
store whose lookups respect key equality answers identically for both —
concretely, a `FilterTool` whose store holds content under the key computed
for one hunk serves that cached content for an `apply` on either hunk. -/
theorem c1_content_identity (H : PyObj → Int) (TH : List Int → Int)
    (SH : String → Int) (FH : Filter → Int) (w : World) (h1 h2 : Hunk)
    (v : PyObj) (d1 : h1.dataVal w = .ok v) (d2 : h2.dataVal w = .ok v)
    (filters : List Filter) (ty : TransformType)
    (get : CacheKey → Option Content)
    (hresp : ∀ k1 k2 : CacheKey, CacheKey.pyEq H w k1 k2 = .ok true →
      get k1 = get k2) :
    Hunk.pyEq H w h1 h2 = .ok true ∧
    Hunk.pyHash H w h1 = Hunk.pyHash H w h2 ∧
    CacheKey.pyEq H w
      (.transformKey h1 (selTransform filters ty) ty)
      (.transformKey h2 (selTransform filters ty) ty) = .ok true ∧
    CacheKey.pyHash H TH SH FH w
        (.transformKey h1 (selTransform filters ty) ty) =
      CacheKey.pyHash H TH SH FH w
        (.transformKey h2 (selTransform filters ty) ty) ∧
    get (.transformKey h1 (selTransform filters ty) ty) =
      get (.transformKey h2 (selTransform filters ty) ty) ∧
    (∀ (t : FilterTool) (kwargs : Option Kwargs) (c : Content),
      t.cache = some get → t.no_cache_read = false →
      selTransform filters ty ≠ [] →
      get (.transformKey h1 (selTransform filters ty) ty) = some c →
      t.apply w h1 filters ty kwargs =
        (.ok (.memory c []),
          [.cacheGet (.transformKey h1 (selTransform filters ty) ty)]) ∧
      t.apply w h2 filters ty kwargs =
        (.ok (.memory c []),
          [.cacheGet (.transformKey h2 (selTransform filters ty) ty)])) := by
  have hh1 : Hunk.pyHash H w h1 = .ok (H v) := by simp [Hunk.pyHash, d1]
  have hh2 : Hunk.pyHash H w h2 = .ok (H v) := by simp [Hunk.pyHash, d2]
  have heq : Hunk.pyEq H w h1 h2 = .ok true := by
    simp [Hunk.pyEq, hh1, hh2]
  have hkeq : CacheKey.pyEq H w
      (.transformKey h1 (selTransform filters ty) ty)
      (.transformKey h2 (selTransform filters ty) ty) = .ok true := by
    simp [CacheKey.pyEq, heq, filterListPyEq_refl]
  refine ⟨heq, hh1.trans hh2.symm, hkeq, ?_, hresp _ _ hkeq, ?_⟩
  · simp [CacheKey.pyHash, hh1, hh2]
  · intro t kwargs c hc hnr hsel hget
    have hT : (selTransform filters ty).isEmpty = false := by
      cases hs : selTransform filters ty with
      | nil => exact absurd hs hsel
      | cons a l => rfl
    have hget2 : get (.transformKey h2 (selTransform filters ty) ty) =
        some c := by
      rw [← hresp _ _ hkeq]
      exact hget
    constructor
    · simp [FilterTool.apply, hT, FilterTool.wrap_cache, hc, hnr, hget]
    · simp [FilterTool.apply, hT, FilterTool.wrap_cache, hc, hnr, hget2]

/-- A world whose filesystem holds one file "f" with text "a". -/
def w1 : World :=
  { fs := fun n => if n = "f" then some "a" else none,
    transport := { fetch := fun _ _ _ => .httpError 404 },
    urlCache := { headers := fun _ => none, contents := fun _ => none } }

/-- A concrete stand-in for Python's builtin `hash` on data values. -/
def H0 : PyObj → Int
  | .content (.str s) => Int.ofNat s.length
  | .content (.bytes s) => Int.ofNat s.length + 1000
  | .pynone => -1

/-- A concrete tuple-hash combiner. -/
def TH0 : List Int → Int := fun l => l.foldl (fun a b => 3 * a + b) 7

/-- A concrete string hash. -/
def SH0 : String → Int := fun s => Int.ofNat s.length

/-- A concrete filter hash. -/
def FH0 : Filter → Int := fun f => Int.ofNat f.fid

/-- A cache store answering every key with the same stored content. -/
def get0 : CacheKey → Option Content := fun _ => some (Content.str "CACHED")

/-- Witness for C1 at concrete inputs: a file-backed hunk and a memory hunk
with provenance, both with data "a"; the memory hunk is served the cache
entry keyed for either. -/
theorem c1_witness :
    Hunk.pyEq H0 w1 (Hunk.file "f")
      (Hunk.memory (Content.str "a") ["origin.js"]) = .ok true ∧
    FilterTool.apply { cache := some get0 } w1
        (Hunk.memory (Content.str "a") ["origin.js"]) [filterB]
        TransformType.output none =
      (.ok (.memory (Content.str "CACHED") []),
        [.cacheGet (.transformKey (Hunk.memory (Content.str "a") ["origin.js"])
          (selTransform [filterB] TransformType.output)
          TransformType.output)]) := by
  have h := c1_content_identity H0 TH0 SH0 FH0 w1 (Hunk.file "f")
    (Hunk.memory (Content.str "a") ["origin.js"]) (.content (.str "a"))
    rfl rfl [filterB] TransformType.output get0 (fun _ _ _ => rfl)
  exact ⟨h.1,
    (h.2.2.2.2.2 { cache := some get0 } none (Content.str "CACHED") rfl rfl
      (List.cons_ne_nil _ _) rfl).2⟩

/-- C2: with a cache store configured, `apply` and `apply_func` serve a
stored value (one that is neither `False` nor `None`) as a fresh
`MemoryHunk` of the cached content with no filter method run; on a miss, or
whenever `no_cache_read` is set, the chain or producer runs, its output is
written to the store under the same key, and a fresh `MemoryHunk` of that
output is returned. -/
theorem c2_cache_read_write (t : FilterTool) (w : World) (hunk : Hunk)
    (filters : List Filter) (ty : TransformType) (kwargs : Option Kwargs)
    (get : CacheKey → Option Content) (c : Content) (v : PyObj)
    (fty : FuncType) (args : List String) (cache_key : Option (List String))
    (f0 : Filter) (m : ProducerFn) (hc : t.cache = some get) :
    (t.no_cache_read = false → selTransform filters ty ≠ [] →
      get (.transformKey hunk (selTransform filters ty) ty) = some c →
      t.apply w hunk filters ty kwargs =
        (.ok (.memory c []),
          [.cacheGet (.transformKey hunk (selTransform filters ty) ty)])) ∧
    (t.no_cache_read = false → selTransform filters ty ≠ [] →
      get (.transformKey hunk (selTransform filters ty) ty) = none →
      hunk.dataVal w = .ok v →
      t.apply w hunk filters ty kwargs =
        (.ok (.memory (chainRun ty (t.kwargsFinal kwargs)
            (selTransform filters ty) (streamInit v)).1 []),
          .cacheGet (.transformKey hunk (selTransform filters ty) ty) ::
            ((chainRun ty (t.kwargsFinal kwargs) (selTransform filters ty)
                (streamInit v)).2 ++
              [.cacheSet (.transformKey hunk (selTransform filters ty) ty)
                (chainRun ty (t.kwargsFinal kwargs) (selTransform filters ty)
                  (streamInit v)).1]))) ∧
    (t.no_cache_read = true → selTransform filters ty ≠ [] →
      hunk.dataVal w = .ok v →
      t.apply w hunk filters ty kwargs =
        (.ok (.memory (chainRun ty (t.kwargsFinal kwargs)
            (selTransform filters ty) (streamInit v)).1 []),
          (chainRun ty (t.kwargsFinal kwargs) (selTransform filters ty)
              (streamInit v)).2 ++
            [.cacheSet (.transformKey hunk (selTransform filters ty) ty)
              (chainRun ty (t.kwargsFinal kwargs) (selTransform filters ty)
                (streamInit v)).1])) ∧
    (t.no_cache_read = false → selFunc filters fty = [f0] →
      get (.funcKey args [f0] fty (cache_key.getD [])) = some c →
      t.apply_func filters fty args kwargs cache_key =
        (.ok (.memory c []),
          [.cacheGet (.funcKey args [f0] fty (cache_key.getD []))])) ∧
    (t.no_cache_read = false → selFunc filters fty = [f0] →
      f0.funcMethod fty = some m →
      get (.funcKey args [f0] fty (cache_key.getD [])) = none →
      t.apply_func filters fty args kwargs cache_key =
        (.ok (.memory (.str (m args (t.kwargsFinal kwargs))) []),
          .cacheGet (.funcKey args [f0] fty (cache_key.getD [])) ::
            [.runMethod f0.name fty.pyStr,
             .cacheSet (.funcKey args [f0] fty (cache_key.getD []))
               (.str (m args (t.kwargsFinal kwargs)))])) ∧
    (t.no_cache_read = true → selFunc filters fty = [f0] →
      f0.funcMethod fty = some m →
      t.apply_func filters fty args kwargs cache_key =
        (.ok (.memory (.str (m args (t.kwargsFinal kwargs))) []),
          [.runMethod f0.name fty.pyStr,
           .cacheSet (.funcKey args [f0] fty (cache_key.getD []))
             (.str (m args (t.kwargsFinal kwargs)))])) := by
  have hTne : selTransform filters ty ≠ [] →
      (selTransform filters ty).isEmpty = false := by
    intro hsel
    cases hs : selTransform filters ty with
    | nil => exact absurd hs hsel
    | cons a l => rfl
  refine ⟨?_, ?_, ?_, ?_, ?_, ?_⟩
  · intro hnr hsel hget
    simp [FilterTool.apply, hTne hsel, FilterTool.wrap_cache, hc, hnr, hget]
  · intro hnr hsel hget hdv
    simp [FilterTool.apply, hTne hsel, FilterTool.wrap_cache, hc, hnr, hget,
      FilterTool.applyChainFunc, hdv]
  · intro hnr hsel hdv
    simp [FilterTool.apply, hTne hsel, FilterTool.wrap_cache, hc, hnr,
      FilterTool.applyChainFunc, hdv]
  · intro hnr hsel hget
    simp [FilterTool.apply_func, hsel, FilterTool.wrap_cache, hc, hnr, hget]
  · intro hnr hsel hm hget
    simp [FilterTool.apply_func, hsel, FilterTool.wrap_cache, hc, hnr, hget,
      FilterTool.applyFuncProducer, hm]
  · intro hnr hsel hm
    simp [FilterTool.apply_func, hsel, FilterTool.wrap_cache, hc, hnr,
      FilterTool.applyFuncProducer, hm]

/-- A cache store that misses on every key. -/
def getMiss : CacheKey → Option Content := fun _ => none

/-- Witness for C2 at concrete inputs: a hit served without running the
filter, and a miss that runs the producer and stores its output. -/
theorem c2_witness :
    FilterTool.apply { cache := some get0 } w0
        (Hunk.memory (Content.str "a") []) [filterB] TransformType.output
        none =
      (.ok (.memory (Content.str "CACHED") []),
        [.cacheGet (.transformKey (Hunk.memory (Content.str "a") [])
          (selTransform [filterB] TransformType.output)
          TransformType.output)]) ∧
    FilterTool.apply_func { cache := some getMiss } [filterC] FuncType.openFn
        ["x", "y"] none none =
      (.ok (.memory (Content.str "x|y") []),
        .cacheGet (.funcKey ["x", "y"] [filterC] FuncType.openFn []) ::
          [.runMethod "C" "open",
           .cacheSet (.funcKey ["x", "y"] [filterC] FuncType.openFn [])
             (Content.str "x|y")]) := by
  refine ⟨?_, ?_⟩
  · exact (c2_cache_read_write { cache := some get0 } w0
      (Hunk.memory (Content.str "a") []) [filterB] TransformType.output none
      get0 (Content.str "CACHED") (.content (.str "a")) FuncType.openFn []
      none filterB (fun _ _ => "") rfl).1 rfl (List.cons_ne_nil _ _) rfl
  · exact (c2_cache_read_write { cache := some getMiss } w0
      (Hunk.memory (Content.str "a") []) [filterC] TransformType.output none
      getMiss (Content.str "CACHED") (.content (.str "a")) FuncType.openFn
      ["x", "y"] none filterC (fun args _ => String.intercalate "|" args)
      rfl).2.2.2.2.1 rfl rfl rfl rfl

lemma chainRun_effects_no_cache (ty : TransformType) (kw : Kwargs)
    (sel : List Filter) (c : Content) :
    ((chainRun ty kw sel c).2.all fun e => !e.isCacheOp) = true := by
  induction sel generalizing c with
  | nil => rfl
  | cons f rest ih =>
      cases hf : f.transformMethod ty with
      | some m =>
          have hrest := ih (c.withText (m c kw))
          simp [chainRun, hf, Effect.isCacheOp] at hrest ⊢
          exact hrest
      | none => simpa [chainRun, hf] using ih c

lemma applyChainFunc_effects_no_cache (t : FilterTool) (w : World)
    (hunk : Hunk) (sel : List Filter) (ty : TransformType)
    (kwargs : Option Kwargs) :
    ((t.applyChainFunc w hunk sel ty kwargs).2.all fun e => !e.isCacheOp) =
      true := by
  cases dv : hunk.dataVal w with
  | error e => simp [FilterTool.applyChainFunc, dv]
  | ok v =>
      simp [FilterTool.applyChainFunc, dv, chainRun_effects_no_cache]

lemma applyFuncProducer_effects_no_cache (t : FilterTool) (sel : List Filter)
    (fty : FuncType) (args : List String) (kwargs : Option Kwargs) :
    ((t.applyFuncProducer sel fty args kwargs).2.all fun e => !e.isCacheOp) =
      true := by
  cases sel with
  | nil => rfl
  | cons f rest =>
      cases hf : f.funcMethod fty with
      | some m => simp [FilterTool.applyFuncProducer, hf, Effect.isCacheOp]
      | none => simp [FilterTool.applyFuncProducer, hf]

/-- C10: without a cache store, `apply` and `apply_func` never emit a cache
get or set — every effect is a filter-method run — and whenever applicable
filters exist (and the hunk's data does not raise) they run the chain or
producer and return a fresh `MemoryHunk` of the freshly computed content. -/
theorem c10_no_cache_store (t : FilterTool) (w : World) (hunk : Hunk)
    (filters : List Filter) (ty : TransformType) (kwargs : Option Kwargs)
    (fty : FuncType) (args : List String) (cache_key : Option (List String))
    (v : PyObj) (hc : t.cache = none) :
    ((t.apply w hunk filters ty kwargs).2.all fun e => !e.isCacheOp) = true ∧
    ((t.apply_func filters fty args kwargs cache_key).2.all
      fun e => !e.isCacheOp) = true ∧
    (selTransform filters ty ≠ [] → hunk.dataVal w = .ok v →
      t.apply w hunk filters ty kwargs =
        (.ok (.memory (chainRun ty (t.kwargsFinal kwargs)
            (selTransform filters ty) (streamInit v)).1 []),
          (chainRun ty (t.kwargsFinal kwargs) (selTransform filters ty)
            (streamInit v)).2)) ∧
    (∀ (f0 : Filter) (m : ProducerFn), selFunc filters fty = [f0] →
      f0.funcMethod fty = some m →
      t.apply_func filters fty args kwargs cache_key =
        (.ok (.memory (.str (m args (t.kwargsFinal kwargs))) []),
          [.runMethod f0.name fty.pyStr])) := by
  refine ⟨?_, ?_, ?_, ?_⟩
  · by_cases hs : (selTransform filters ty).isEmpty
    · simp [FilterTool.apply, hs]
    · have hall := applyChainFunc_effects_no_cache t w hunk
        (selTransform filters ty) ty kwargs
      rcases hP : t.applyChainFunc w hunk (selTransform filters ty) ty kwargs
        with ⟨r, eff⟩
      rw [hP] at hall
      cases r with
      | ok cc =>
          simpa [FilterTool.apply, hs, FilterTool.wrap_cache, hc, hP]
            using hall
      | error e =>
          simpa [FilterTool.apply, hs, FilterTool.wrap_cache, hc, hP]
            using hall
  · by_cases hs : (selFunc filters fty).isEmpty
    · simp [FilterTool.apply_func, hs]
    · by_cases hl : (selFunc filters fty).length > 1
      · simp [FilterTool.apply_func, hs, hl]
      · have hall := applyFuncProducer_effects_no_cache t
          (selFunc filters fty) fty args kwargs
        rcases hP : t.applyFuncProducer (selFunc filters fty) fty args kwargs
          with ⟨r, eff⟩
        rw [hP] at hall
        cases r with
        | ok cc =>
            simpa [FilterTool.apply_func, hs, hl, FilterTool.wrap_cache, hc,
              hP] using hall
        | error e =>
            simpa [FilterTool.apply_func, hs, hl, FilterTool.wrap_cache, hc,
              hP] using hall
  · intro hsel hdv
    have hT : (selTransform filters ty).isEmpty = false := by
      cases hs : selTransform filters ty with
      | nil => exact absurd hs hsel
      | cons a l => rfl
    simp [FilterTool.apply, hT, FilterTool.wrap_cache, hc,
      FilterTool.applyChainFunc, hdv]
  · intro f0 m hsel hm
    simp [FilterTool.apply_func, hsel, FilterTool.wrap_cache, hc,
      FilterTool.applyFuncProducer, hm]

/-- Witness for C10 at concrete inputs: a `FilterTool` with no cache store
runs the `output` chain and returns the freshly computed content with only
run effects. -/
theorem c10_witness :
    ((FilterTool.apply { } w0 (Hunk.memory (Content.str "a") []) [filterB]
        TransformType.output none).2.all fun e => !e.isCacheOp) = true ∧
    FilterTool.apply { } w0 (Hunk.memory (Content.str "a") []) [filterB]
        TransformType.output none =
      (.ok (.memory (Content.str "a!") []), [.runMethod "B" "output"]) := by
  have h := c10_no_cache_store { } w0 (Hunk.memory (Content.str "a") [])
    [filterB] TransformType.output none FuncType.openFn [] none
    (.content (.str "a")) rfl
  exact ⟨h.1, h.2.2.1 (List.cons_ne_nil _ _) rfl⟩

/-- A world whose transport answers every request with 200, body "B" and
validator headers, over an empty url cache. -/
def w8 : World :=
  { fs := fun _ => none,
    transport := { fetch := fun _ _ _ => HttpResponse.success "B"
                     { etagHeader := some "E", lastModifiedHeader := some "L" } },
    urlCache := { headers := fun _ => none, contents := fun _ => none } }

/-- C8 (evaluation at the failing input): with an environment cache
configured and the server answering 200 with body "B" and validators, the
first `UrlHunk.data` call raises `AttributeError` out of the
`response.headers.getheader` call, performs no cache set (the headers and
contents entries stay empty), and still memoizes the body on the hunk, so
the conditional-fetch machinery the claim describes never gets its
validators stored. A non-304 transport error does propagate, as the claim
says. -/
theorem c8_first_fetch_attribute_error :
    (urlFetch w8 "http://x/a" (some { cache := true })).result =
      .error (.attributeError "getheader") ∧
    (urlFetch w8 "http://x/a" (some { cache := true })).effects =
      [.cacheGetHeaders "http://x/a", .request "http://x/a" none none,
        .readBody "http://x/a"] ∧
    (urlFetch w8 "http://x/a" (some { cache := true })).cache.headers
      "http://x/a" = none ∧
    (urlFetch w8 "http://x/a" (some { cache := true })).cache.contents
      "http://x/a" = none ∧
    (urlFetch w8 "http://x/a" (some { cache := true })).memo =
      some (.content (.bytes "B")) ∧
    (urlFetch w0 "http://x/a" (some { cache := true })).result =
      .error (.httpError 404) :=
  ⟨rfl, rfl, rfl, rfl, rfl, rfl⟩

end Webassets
